import Mathlib

/-!
Shallow embedding of the IPI / remote-fence / timer subsystem of the
prototyper firmware, `src/prototyper/src/sbi/ipi.rs`.

The repository source under verification contains `ipi.rs` itself; the
collaborator modules it calls into (`sbi/hsm.rs`, `sbi/rfence.rs`,
`sbi/trap.rs`, the per-hart context store `trap_stack::ROOT_STACK`) are not
part of the provided sources, so the definitions for them below are
modelled from the specification and are marked as such in their doc
comments.  Machine integers are modelled as `Nat`; the per-hart event mask
`ipi_type` is an 8-bit flag set whose only used bits are 1 and 2, so plain
`Nat` bitwise operations are exact.  The physical IPI device is modelled by
a per-hart pulse counter `msipPulses`: `set_msip` increments it, which lets
theorems speak about how often the software-interrupt-pending line of a
hart was pulsed.  The hart a function runs on (`current_hartid()`) is
passed as an explicit parameter.
-/

namespace Prototyper

/-- IPI type for supervisor software interrupt (source: `IPI_TYPE_SSOFT = 1 << 0`). -/
def IPI_TYPE_SSOFT : Nat := 1

/-- IPI type for memory fence operations (source: `IPI_TYPE_FENCE = 1 << 1`). -/
def IPI_TYPE_FENCE : Nat := 2

/-- Modelled from the spec (`sbi/hsm.rs` is not in the provided sources):
hart lifecycle states of the HSM extension, §3 of the spec. -/
inductive HsmState where
  | Stopped
  | StartPending
  | Started
  | StopPending
  | SuspendPending
  | Suspended
  | ResumePending
deriving DecidableEq

/-- Modelled from the spec (`sbi/hsm.rs` is not in the provided sources):
`allow_ipi` is true only in states where the hart has a live trap handler
able to service the interrupt (§4.1); `Started`, plus `Suspended` as the
state explicitly marked IPI-eligible (wake-by-interrupt).  In particular it
is false in `Stopped` and `StopPending` (§8, HSM gating). -/
def HsmState.allow_ipi : HsmState → Bool
  | .Started => true
  | .Suspended => true
  | _ => false

/-- Modelled from the spec (`sbi/rfence.rs` is not in the provided sources):
a fence descriptor — operation kind, address range, address-space id (§3). -/
structure RFenceContext where
  start_addr : Nat
  size : Nat
  asid : Nat
  op : Nat
deriving DecidableEq

/-- SBI return value: error and value registers. `SbiRet::success(v)` has
error code 0. -/
structure SbiRet where
  error : Nat
  value : Nat
deriving DecidableEq

/-- `SbiRet::success(value)`. -/
def SbiRet.success (v : Nat) : SbiRet := ⟨0, v⟩

/-- Global state touched by the IPI/rfence paths.  `numHarts` is the number
of harts in the topology; per the spec (§6) it also sizes the per-hart
context store `ROOT_STACK`, so a hart id is in topology iff it indexes the
store in bounds.  `ipiType` is the per-hart atomic event mask, `msipPulses`
counts device pulses per hart, `rfenceSlot` is the per-hart fence slot
(holding the descriptor and the originating hart), `rendezvous` is the
per-hart rendezvous counter (`wait_sync_count`).  `ub` records whether an
out-of-bounds `get_unchecked_mut` access (undefined behaviour) happened. -/
@[ext]
structure SysState where
  numHarts : Nat
  ipiType : Nat → Nat
  hsm : Nat → HsmState
  msipPulses : Nat → Nat
  rfenceSlot : Nat → Option (RFenceContext × Nat)
  rendezvous : Nat → Nat
  ub : Bool

/-- Modelled from the spec (`sbi/hsm.rs` is not in the provided sources):
`remote_hsm(hart_id)` returns a handle only for a hart id that exists in
the system topology, `None` otherwise (§4.1). -/
def remote_hsm (s : SysState) (hart_id : Nat) : Option HsmState :=
  if hart_id < s.numHarts then some (s.hsm hart_id) else none

/-- Source `set_ipi_type`: fetch-OR of `event_id` into
`ROOT_STACK.get_unchecked_mut(hart_id).hart_context().ipi_type`, returning
the previous mask.  The source indexes without a bounds check; the model
makes the out-of-bounds branch explicit by setting the `ub` flag (and
leaving the state otherwise unchanged). -/
def set_ipi_type (s : SysState) (hart_id : Nat) (event_id : Nat) : Nat × SysState :=
  if hart_id < s.numHarts then
    (s.ipiType hart_id,
      { s with ipiType := fun k => if k = hart_id then s.ipiType hart_id ||| event_id else s.ipiType k })
  else
    (0, { s with ub := true })

/-- Source `get_and_reset_ipi_type`: swap-with-zero of the current hart's
`ipi_type`, returning the previous mask; unchecked indexing modelled as in
`set_ipi_type`. -/
def get_and_reset_ipi_type (s : SysState) (current : Nat) : Nat × SysState :=
  if current < s.numHarts then
    (s.ipiType current,
      { s with ipiType := fun k => if k = current then 0 else s.ipiType k })
  else
    (0, { s with ub := true })

/-- Device `set_msip(hart_idx)`: pulse the software-interrupt-pending line
of a hart; modelled as incrementing its pulse counter. -/
def set_msip (s : SysState) (hart_idx : Nat) : SysState :=
  { s with msipPulses := fun k => if k = hart_idx then s.msipPulses hart_idx + 1 else s.msipPulses k }

/-- Loop body of source `SbiIpi::send_ipi` for one hart id: skip if the
mask bit is clear, if `remote_hsm` returns `None`, or if `allow_ipi` is
false; otherwise fetch-OR `IPI_TYPE_SSOFT` into the hart's event mask and,
if the previous mask was zero, pulse its `msip` line. -/
def send_ipi_step (mask : Nat → Bool) (s : SysState) (hart_id : Nat) : SysState :=
  if !(mask hart_id) then s
  else
    match remote_hsm s hart_id with
    | none => s
    | some hsm =>
      if !hsm.allow_ipi then s
      else
        let r := set_ipi_type s hart_id IPI_TYPE_SSOFT
        if r.1 = 0 then set_msip r.2 hart_id else r.2

/-- Source `SbiIpi::send_ipi`: iterate the step over `0..=max_hart_id` and
return `SbiRet::success(0)` unconditionally. -/
def send_ipi (s : SysState) (mask : Nat → Bool) (max_hart_id : Nat) : SysState × SbiRet :=
  ((List.range (max_hart_id + 1)).foldl (send_ipi_step mask) s, SbiRet.success 0)

/-- Modelled from the spec (`sbi/rfence.rs` is not in the provided
sources): `remote_rfence(hart_id)` returns the hart's rendezvous record
handle for a hart in topology (the context store holds one record per
hart, §3), `None` otherwise; the handle gives access to the slot
contents. -/
def remote_rfence (s : SysState) (hart_id : Nat) : Option (Option (RFenceContext × Nat)) :=
  if hart_id < s.numHarts then some (s.rfenceSlot hart_id) else none

/-- Modelled from the spec (`sbi/rfence.rs` is not in the provided
sources): `local_rfence()` is the current hart's own rendezvous record;
the handle gives access to the counter value. -/
def local_rfence (s : SysState) (current : Nat) : Option Nat :=
  if current < s.numHarts then some (s.rendezvous current) else none

/-- Modelled from the spec: `remote.set(ctx)` writes the descriptor into
the target's `rfence_slot` with overwrite semantics (§3), recording the
originating hart so the target can later decrement the originator's
counter (§4.3 target-side handling). -/
def rfence_set (s : SysState) (hart_id : Nat) (ctx : RFenceContext) (src : Nat) : SysState :=
  { s with rfenceSlot := fun k => if k = hart_id then some (ctx, src) else s.rfenceSlot k }

/-- Modelled from the spec: `local.add()` increments the initiating hart's
rendezvous counter by one (§3, §4.3 step 2). -/
def rfence_add (s : SysState) (current : Nat) : SysState :=
  { s with rendezvous := fun k => if k = current then s.rendezvous current + 1 else s.rendezvous k }

/-- Modelled from the spec: `is_sync()` — the synchronized predicate is
true iff the rendezvous counter is zero (§3). -/
def is_sync (s : SysState) (current : Nat) : Bool :=
  s.rendezvous current == 0

/-- Loop body of source `SbiIpi::send_ipi_by_fence` for one hart id: after
the same three eligibility guards as `send_ipi`, if `remote_rfence` yields
a record: write the descriptor into the target's slot, increment the
initiator's counter (when `local_rfence` yields a record), and — only when
the target is not the initiator — fetch-OR `IPI_TYPE_FENCE` into its event
mask, pulsing `msip` if the previous mask was zero. -/
def send_ipi_by_fence_step (mask : Nat → Bool) (current : Nat) (ctx : RFenceContext)
    (s : SysState) (hart_id : Nat) : SysState :=
  if !(mask hart_id) then s
  else
    match remote_hsm s hart_id with
    | none => s
    | some hsm =>
      if !hsm.allow_ipi then s
      else
        match remote_rfence s hart_id with
        | none => s
        | some _ =>
          let s1 := rfence_set s hart_id ctx current
          let s2 :=
            match local_rfence s1 current with
            | some _ => rfence_add s1 current
            | none => s1
          if hart_id ≠ current then
            let r := set_ipi_type s2 hart_id IPI_TYPE_FENCE
            if r.1 = 0 then set_msip r.2 hart_id else r.2
          else s2

/-- The publishing loop of source `SbiIpi::send_ipi_by_fence` over
`0..=max_hart_id` (lines 115–140), before the rendezvous wait. -/
def fence_publish (s : SysState) (mask : Nat → Bool) (ctx : RFenceContext)
    (current max_hart_id : Nat) : SysState :=
  (List.range (max_hart_id + 1)).foldl (send_ipi_by_fence_step mask current ctx) s

/-- Modelled from the spec (`sbi/trap.rs` is not in the provided sources):
`trap::rfence_single_handler()` — the consumption step run by the
initiating hart inside the rendezvous wait: read and clear its own
`rfence_slot`, perform the local invalidation, and decrement the
*originating* hart's rendezvous counter (§4.3). -/
def rfence_single_handler (s : SysState) (current : Nat) : SysState :=
  match s.rfenceSlot current with
  | some entry =>
    { s with
      rfenceSlot := fun k => if k = current then none else s.rfenceSlot k,
      rendezvous := fun k => if k = entry.2 then s.rendezvous entry.2 - 1 else s.rendezvous k }
  | none => s

/-- The rendezvous wait loop of source `SbiIpi::send_ipi_by_fence` (lines
142–145): while `is_sync` is false, run one service step and re-check.
`step` is the loop body: the initiator's own `rfence_single_handler`
composed with arbitrary interleaved progress of other harts (the fuel
index lets the environment vary per iteration).  Fuel exhaustion returns
`none`, modelling the unbounded spin of the source (no timeout, §4.3). -/
def fence_wait (step : Nat → SysState → SysState) (current : Nat) :
    Nat → SysState → Option SysState
  | 0, s => if is_sync s current then some s else none
  | fuel + 1, s =>
    if is_sync s current then some s
    else fence_wait step current fuel (step fuel s)

/-- Source `SbiIpi::send_ipi_by_fence`: publish to all targets, then wait
until the initiator's rendezvous counter is zero, then return
`SbiRet::success(0)`.  `env` models the concurrent activity of the other
harts during the wait (each iteration of the source loop runs
`rfence_single_handler` and then arbitrary interleaved remote progress).
The source unwraps `local_rfence()`; the model returns `none` (panic) when
the current hart has no record.  `none` also stands for a wait that has
not terminated within `fuel` iterations. -/
def send_ipi_by_fence (env : Nat → SysState → SysState) (fuel : Nat) (s : SysState)
    (mask : Nat → Bool) (ctx : RFenceContext) (current max_hart_id : Nat) :
    Option (SysState × SbiRet) :=
  let s1 := fence_publish s mask ctx current max_hart_id
  if current < s1.numHarts then
    (fence_wait (fun n t => env n (rfence_single_handler t current)) current fuel s1).map
      (fun s2 => (s2, SbiRet.success 0))
  else none

/-- Source `SbiIpi::get_time`: `read_mtime() as usize` — the 64-bit
counter truncated to the machine word.  The word width is a build-target
parameter of the Rust source (`usize`), so it is a parameter here;
the repository code manipulates 64-bit CSR/compare values in single
register writes, i.e. it is built for a 64-bit target (`usize_bits = 64`). -/
def get_time (usize_bits : Nat) (mtime : Nat) : Nat :=
  mtime % 2 ^ usize_bits

/-- Source `SbiIpi::get_timeh`: `(read_mtime() >> 32) as usize`. -/
def get_timeh (usize_bits : Nat) (mtime : Nat) : Nat :=
  (mtime >>> 32) % 2 ^ usize_bits

/-- Timer-relevant state for `SbiIpi::set_timer` (`rustsbi::Timer` impl):
per-hart Sstc capability (`hart_extension_probe`, a boolean capability
lookup per spec §1), per-hart `stimecmp` fast-compare CSR, the shared
`mtimecmp` compare array of the device, the pending supervisor-timer flag
(`mip.STIP`) and the machine-timer-interrupt enable bit (`mie.MTIE`) per
hart. -/
@[ext]
structure TimerState where
  sstc : Nat → Bool
  stimecmp : Nat → Nat
  mtimecmp : Nat → Nat
  stip : Nat → Bool
  mtie : Nat → Bool

/-- Source `SbiIpi::set_timer` (for the hart `hart_id` it runs on): if the
hart's ISA reports Sstc, write the deadline to its `stimecmp`; otherwise
write it to the hart's `mtimecmp` slot and clear the pending
supervisor-timer flag (`mip::clear_stimer`); in both branches finally set
the machine-timer-interrupt enable bit (`mie::set_mtimer`). -/
def set_timer (ts : TimerState) (hart_id : Nat) (stime_value : Nat) : TimerState :=
  let uses_sstc := ts.sstc hart_id
  let ts1 :=
    if uses_sstc then
      { ts with stimecmp := fun k => if k = hart_id then stime_value else ts.stimecmp k }
    else
      { ts with
        mtimecmp := fun k => if k = hart_id then stime_value else ts.mtimecmp k,
        stip := fun k => if k = hart_id then false else ts.stip k }
  { ts1 with mtie := fun k => if k = hart_id then true else ts1.mtie k }

/-- Eligibility of a hart id as an IPI/fence target, as checked by the
guards of both loops: mask bit set, in topology (`remote_hsm` is `some`),
and `allow_ipi`. -/
def ipiEligible (s : SysState) (mask : Nat → Bool) (i : Nat) : Bool :=
  mask i && (decide (i < s.numHarts)) && (s.hsm i).allow_ipi

/-- Number of eligible targets among `0..=max_hart_id`. -/
def eligCount (s : SysState) (mask : Nat → Bool) (n : Nat) : Nat :=
  (List.range n).countP (fun j => ipiEligible s mask j)

/-- The two mutations ever applied to a per-hart event mask: a sender's
fetch-OR (`set_ipi_type`) and the owner's swap-with-zero
(`get_and_reset_ipi_type`). -/
inductive IpiOp where
  | sender (hart : Nat) (bits : Nat)
  | ownerClear (hart : Nat)

/-- Run one event-mask operation on the state. -/
def runIpiOp : IpiOp → SysState → SysState
  | .sender h b, s => (set_ipi_type s h b).2
  | .ownerClear h, s => (get_and_reset_ipi_type s h).2

/-- A concrete two-hart state, both harts `Started`, all masks and
counters zero; used by witnesses. -/
def stW : SysState where
  numHarts := 2
  ipiType := fun _ => 0
  hsm := fun _ => HsmState.Started
  msipPulses := fun _ => 0
  rfenceSlot := fun _ => none
  rendezvous := fun _ => 0
  ub := false

/-- A concrete two-hart state whose hart-0 rendezvous counter is 5 at
entry; used to exhibit that `send_ipi_by_fence` performs no reset. -/
def cexSt : SysState where
  numHarts := 2
  ipiType := fun _ => 0
  hsm := fun _ => HsmState.Started
  msipPulses := fun _ => 0
  rfenceSlot := fun _ => none
  rendezvous := fun i => if i = 0 then 5 else 0
  ub := false

/-- Concrete descriptor used by witnesses and counterexamples. -/
def ctx0 : RFenceContext := ⟨0, 0, 0, 0⟩

/-- Mask selecting only hart 1. -/
def maskOnly1 : Nat → Bool := fun i => i == 1

/-- Empty mask. -/
def maskNone : Nat → Bool := fun _ => false

/-! ### Step-effect lemmas -/

theorem ipiEligible_decomp (s : SysState) (mask : Nat → Bool) (i : Nat)
    (h : ipiEligible s mask i = true) :
    mask i = true ∧ i < s.numHarts ∧ (s.hsm i).allow_ipi = true := by
  simp only [ipiEligible, Bool.and_eq_true, decide_eq_true_eq] at h
  exact ⟨h.1.1, h.1.2, h.2⟩

theorem ipiEligible_congr (s t : SysState) (mask : Nat → Bool) (i : Nat)
    (h1 : t.numHarts = s.numHarts) (h2 : t.hsm = s.hsm) :
    ipiEligible t mask i = ipiEligible s mask i := by
  unfold ipiEligible; rw [h1, h2]


theorem send_ipi_step_of_not_eligible (mask : Nat → Bool) (s : SysState) (i : Nat)
    (h : ipiEligible s mask i = false) : send_ipi_step mask s i = s := by
  unfold send_ipi_step
  by_cases hm : mask i = true
  · by_cases hn : i < s.numHarts
    · have ha : (s.hsm i).allow_ipi = false := by
        simpa [ipiEligible, hm, hn] using h
      simp [remote_hsm, hm, hn, ha]
    · simp [remote_hsm, hm, hn]
  · simp [hm]

theorem send_ipi_step_of_eligible (mask : Nat → Bool) (s : SysState) (i : Nat)
    (h : ipiEligible s mask i = true) :
    send_ipi_step mask s i =
      (if s.ipiType i = 0
       then set_msip
         { s with ipiType := fun k => if k = i then s.ipiType i ||| IPI_TYPE_SSOFT else s.ipiType k } i
       else
         { s with ipiType := fun k => if k = i then s.ipiType i ||| IPI_TYPE_SSOFT else s.ipiType k }) := by
  obtain ⟨hm, hn, ha⟩ := ipiEligible_decomp s mask i h
  simp [send_ipi_step, remote_hsm, hm, hn, ha, set_ipi_type]

/-! ### Loop characterization for `send_ipi` -/

theorem send_ipi_loop_char (mask : Nat → Bool) (s : SysState) :
    ∀ n : Nat,
      (((List.range n).foldl (send_ipi_step mask) s).numHarts = s.numHarts) ∧
      (((List.range n).foldl (send_ipi_step mask) s).hsm = s.hsm) ∧
      (((List.range n).foldl (send_ipi_step mask) s).rfenceSlot = s.rfenceSlot) ∧
      (((List.range n).foldl (send_ipi_step mask) s).rendezvous = s.rendezvous) ∧
      (((List.range n).foldl (send_ipi_step mask) s).ub = s.ub) ∧
      (∀ i, ((List.range n).foldl (send_ipi_step mask) s).ipiType i =
        if i < n ∧ ipiEligible s mask i = true then s.ipiType i ||| IPI_TYPE_SSOFT
        else s.ipiType i) ∧
      (∀ i, ((List.range n).foldl (send_ipi_step mask) s).msipPulses i =
        if i < n ∧ ipiEligible s mask i = true ∧ s.ipiType i = 0 then s.msipPulses i + 1
        else s.msipPulses i) := by
  intro n
  induction n with
  | zero => simp
  | succ n ih =>
    obtain ⟨h1, h2, h3, h4, h5, h6, h7⟩ := ih
    rw [List.range_succ, List.foldl_append]
    set t := (List.range n).foldl (send_ipi_step mask) s with ht
    simp only [List.foldl_cons, List.foldl_nil]
    have helig : ipiEligible t mask n = ipiEligible s mask n :=
      ipiEligible_congr s t mask n h1 h2
    have htn : t.ipiType n = s.ipiType n := by rw [h6 n]; simp
    have htmn : t.msipPulses n = s.msipPulses n := by rw [h7 n]; simp
    by_cases he : ipiEligible s mask n = true
    · rw [send_ipi_step_of_eligible mask t n (by rw [helig, he])]
      simp only [htn]
      by_cases hz : s.ipiType n = 0
      · rw [if_pos hz]
        refine ⟨by simp [set_msip, h1], by simp [set_msip, h2], by simp [set_msip, h3],
          by simp [set_msip, h4], by simp [set_msip, h5], ?_, ?_⟩
        · intro i
          by_cases hi : i = n
          · subst hi
            have hlt : i < i + 1 := by omega
            simp [set_msip, htn, he, hlt]
          · have hiff : i < n + 1 ↔ i < n := by omega
            simp [set_msip, hi, h6 i, hiff]
        · intro i
          by_cases hi : i = n
          · subst hi
            have hlt : i < i + 1 := by omega
            simp [set_msip, htmn, he, hz, hlt]
          · have hiff : i < n + 1 ↔ i < n := by omega
            simp [set_msip, hi, h7 i, hiff]
      · rw [if_neg hz]
        refine ⟨by simp [h1], by simp [h2], by simp [h3], by simp [h4], by simp [h5], ?_, ?_⟩
        · intro i
          by_cases hi : i = n
          · subst hi
            have hlt : i < i + 1 := by omega
            simp [htn, he, hlt]
          · have hiff : i < n + 1 ↔ i < n := by omega
            simp [hi, h6 i, hiff]
        · intro i
          by_cases hi : i = n
          · subst hi
            simp [h7 i, hz, Nat.lt_irrefl]
          · have hiff : i < n + 1 ↔ i < n := by omega
            simp [hi, h7 i, hiff]
    · have hef : ipiEligible s mask n = false := by
        cases hef2 : ipiEligible s mask n
        · rfl
        · exact absurd hef2 he
      rw [send_ipi_step_of_not_eligible mask t n (by rw [helig, hef])]
      refine ⟨h1, h2, h3, h4, h5, ?_, ?_⟩
      · intro i
        by_cases hi : i = n
        · subst hi
          simp [h6 i, he, Nat.lt_irrefl]
        · have hiff : i < n + 1 ↔ i < n := by omega
          simp [h6 i, hiff]
      · intro i
        by_cases hi : i = n
        · subst hi
          simp [h7 i, he, Nat.lt_irrefl]
        · have hiff : i < n + 1 ↔ i < n := by omega
          simp [h7 i, hiff]


/-! ### Step-effect lemmas for the fence publish loop -/

theorem fence_step_of_not_eligible (mask : Nat → Bool) (current : Nat) (ctx : RFenceContext)
    (s : SysState) (i : Nat) (h : ipiEligible s mask i = false) :
    send_ipi_by_fence_step mask current ctx s i = s := by
  unfold send_ipi_by_fence_step
  by_cases hm : mask i = true
  · by_cases hn : i < s.numHarts
    · have ha : (s.hsm i).allow_ipi = false := by
        simpa [ipiEligible, hm, hn] using h
      simp [remote_hsm, hm, hn, ha]
    · simp [remote_hsm, hm, hn]
  · simp [hm]

theorem fence_step_of_eligible (mask : Nat → Bool) (current : Nat) (ctx : RFenceContext)
    (s : SysState) (i : Nat) (h : ipiEligible s mask i = true) :
    ((send_ipi_by_fence_step mask current ctx s i).numHarts = s.numHarts) ∧
    ((send_ipi_by_fence_step mask current ctx s i).hsm = s.hsm) ∧
    ((send_ipi_by_fence_step mask current ctx s i).ub = s.ub) ∧
    (∀ k, (send_ipi_by_fence_step mask current ctx s i).rfenceSlot k =
      if k = i then some (ctx, current) else s.rfenceSlot k) ∧
    (∀ k, (send_ipi_by_fence_step mask current ctx s i).rendezvous k =
      if k = current ∧ current < s.numHarts then s.rendezvous k + 1 else s.rendezvous k) ∧
    (∀ k, (send_ipi_by_fence_step mask current ctx s i).ipiType k =
      if k = i ∧ i ≠ current then s.ipiType i ||| IPI_TYPE_FENCE else s.ipiType k) ∧
    (∀ k, (send_ipi_by_fence_step mask current ctx s i).msipPulses k =
      if k = i ∧ i ≠ current ∧ s.ipiType i = 0 then s.msipPulses k + 1 else s.msipPulses k) := by
  obtain ⟨hm, hn, ha⟩ := ipiEligible_decomp s mask i h
  by_cases hic : i = current
  · subst hic
    have hstep : send_ipi_by_fence_step mask i ctx s i = rfence_add (rfence_set s i ctx i) i := by
      simp [send_ipi_by_fence_step, remote_hsm, hm, hn, ha, remote_rfence, local_rfence,
        rfence_set]
    rw [hstep]
    refine ⟨by simp [rfence_add, rfence_set], by simp [rfence_add, rfence_set],
      by simp [rfence_add, rfence_set], ?_, ?_, ?_, ?_⟩
    · intro k; by_cases hk : k = i <;> simp [rfence_add, rfence_set, hk]
    · intro k; by_cases hk : k = i <;> simp [rfence_add, rfence_set, hk, hn]
    · intro k; simp [rfence_add, rfence_set]
    · intro k; simp [rfence_add, rfence_set]
  · by_cases hc : current < s.numHarts
    · refine ⟨?_, ?_, ?_, ?_, ?_, ?_, ?_⟩
      · by_cases hz : s.ipiType i = 0 <;>
          simp [send_ipi_by_fence_step, remote_hsm, hm, hn, ha, remote_rfence, local_rfence,
            rfence_set, rfence_add, set_ipi_type, set_msip, hic, hc, hz]
      · by_cases hz : s.ipiType i = 0 <;>
          simp [send_ipi_by_fence_step, remote_hsm, hm, hn, ha, remote_rfence, local_rfence,
            rfence_set, rfence_add, set_ipi_type, set_msip, hic, hc, hz]
      · by_cases hz : s.ipiType i = 0 <;>
          simp [send_ipi_by_fence_step, remote_hsm, hm, hn, ha, remote_rfence, local_rfence,
            rfence_set, rfence_add, set_ipi_type, set_msip, hic, hc, hz]
      · intro k
        by_cases hz : s.ipiType i = 0 <;> by_cases hk : k = i <;>
          simp [send_ipi_by_fence_step, remote_hsm, hm, hn, ha, remote_rfence, local_rfence,
            rfence_set, rfence_add, set_ipi_type, set_msip, hic, hc, hz, hk]
      · intro k
        by_cases hz : s.ipiType i = 0 <;> by_cases hkc : k = current <;>
          simp [send_ipi_by_fence_step, remote_hsm, hm, hn, ha, remote_rfence, local_rfence,
            rfence_set, rfence_add, set_ipi_type, set_msip, hic, hc, hz, hkc]
      · intro k
        by_cases hz : s.ipiType i = 0 <;> by_cases hk : k = i <;>
          simp [send_ipi_by_fence_step, remote_hsm, hm, hn, ha, remote_rfence, local_rfence,
            rfence_set, rfence_add, set_ipi_type, set_msip, hic, hc, hz, hk]
      · intro k
        by_cases hz : s.ipiType i = 0 <;> by_cases hk : k = i <;>
          simp [send_ipi_by_fence_step, remote_hsm, hm, hn, ha, remote_rfence, local_rfence,
            rfence_set, rfence_add, set_ipi_type, set_msip, hic, hc, hz, hk]
    · refine ⟨?_, ?_, ?_, ?_, ?_, ?_, ?_⟩
      · by_cases hz : s.ipiType i = 0 <;>
          simp [send_ipi_by_fence_step, remote_hsm, hm, hn, ha, remote_rfence, local_rfence,
            rfence_set, rfence_add, set_ipi_type, set_msip, hic, hc, hz]
      · by_cases hz : s.ipiType i = 0 <;>
          simp [send_ipi_by_fence_step, remote_hsm, hm, hn, ha, remote_rfence, local_rfence,
            rfence_set, rfence_add, set_ipi_type, set_msip, hic, hc, hz]
      · by_cases hz : s.ipiType i = 0 <;>
          simp [send_ipi_by_fence_step, remote_hsm, hm, hn, ha, remote_rfence, local_rfence,
            rfence_set, rfence_add, set_ipi_type, set_msip, hic, hc, hz]
      · intro k
        by_cases hz : s.ipiType i = 0 <;> by_cases hk : k = i <;>
          simp [send_ipi_by_fence_step, remote_hsm, hm, hn, ha, remote_rfence, local_rfence,
            rfence_set, rfence_add, set_ipi_type, set_msip, hic, hc, hz, hk]
      · intro k
        by_cases hz : s.ipiType i = 0 <;> by_cases hkc : k = current <;>
          simp [send_ipi_by_fence_step, remote_hsm, hm, hn, ha, remote_rfence, local_rfence,
            rfence_set, rfence_add, set_ipi_type, set_msip, hic, hc, hz, hkc]
      · intro k
        by_cases hz : s.ipiType i = 0 <;> by_cases hk : k = i <;>
          simp [send_ipi_by_fence_step, remote_hsm, hm, hn, ha, remote_rfence, local_rfence,
            rfence_set, rfence_add, set_ipi_type, set_msip, hic, hc, hz, hk]
      · intro k
        by_cases hz : s.ipiType i = 0 <;> by_cases hk : k = i <;>
          simp [send_ipi_by_fence_step, remote_hsm, hm, hn, ha, remote_rfence, local_rfence,
            rfence_set, rfence_add, set_ipi_type, set_msip, hic, hc, hz, hk]

/-! ### Loop characterization for the fence publish loop -/

theorem eligCount_succ (s : SysState) (mask : Nat → Bool) (n : Nat) :
    eligCount s mask (n + 1) =
      eligCount s mask n + (if ipiEligible s mask n = true then 1 else 0) := by
  unfold eligCount
  rw [List.range_succ, List.countP_append]
  simp [List.countP_cons]

theorem fence_publish_char (mask : Nat → Bool) (ctx : RFenceContext) (current : Nat)
    (s : SysState) :
    ∀ n : Nat,
      (((List.range n).foldl (send_ipi_by_fence_step mask current ctx) s).numHarts
        = s.numHarts) ∧
      (((List.range n).foldl (send_ipi_by_fence_step mask current ctx) s).hsm = s.hsm) ∧
      (((List.range n).foldl (send_ipi_by_fence_step mask current ctx) s).ub = s.ub) ∧
      (∀ i, ((List.range n).foldl (send_ipi_by_fence_step mask current ctx) s).rfenceSlot i =
        if i < n ∧ ipiEligible s mask i = true then some (ctx, current) else s.rfenceSlot i) ∧
      (∀ i, ((List.range n).foldl (send_ipi_by_fence_step mask current ctx) s).rendezvous i =
        if i = current ∧ current < s.numHarts then s.rendezvous i + eligCount s mask n
        else s.rendezvous i) ∧
      (∀ i, ((List.range n).foldl (send_ipi_by_fence_step mask current ctx) s).ipiType i =
        if i < n ∧ ipiEligible s mask i = true ∧ i ≠ current
        then s.ipiType i ||| IPI_TYPE_FENCE else s.ipiType i) ∧
      (∀ i, ((List.range n).foldl (send_ipi_by_fence_step mask current ctx) s).msipPulses i =
        if i < n ∧ ipiEligible s mask i = true ∧ i ≠ current ∧ s.ipiType i = 0
        then s.msipPulses i + 1 else s.msipPulses i) := by
  intro n
  induction n with
  | zero => simp [eligCount]
  | succ n ih =>
    obtain ⟨h1, h2, h3, h4, h5, h6, h7⟩ := ih
    rw [List.range_succ, List.foldl_append]
    set t := (List.range n).foldl (send_ipi_by_fence_step mask current ctx) s with ht
    simp only [List.foldl_cons, List.foldl_nil]
    have helig : ipiEligible t mask n = ipiEligible s mask n :=
      ipiEligible_congr s t mask n h1 h2
    have htn : t.ipiType n = s.ipiType n := by rw [h6 n]; simp
    have htmn : t.msipPulses n = s.msipPulses n := by rw [h7 n]; simp
    by_cases he : ipiEligible s mask n = true
    · obtain ⟨g1, g2, g3, g4, g5, g6, g7⟩ :=
        fence_step_of_eligible mask current ctx t n (by rw [helig, he])
      refine ⟨by rw [g1, h1], by rw [g2, h2], by rw [g3, h3], ?_, ?_, ?_, ?_⟩
      · intro i
        rw [g4 i]
        by_cases hi : i = n
        · subst hi
          have hlt : i < i + 1 := by omega
          simp [he, hlt]
        · have hiff : i < n + 1 ↔ i < n := by omega
          simp [hi, h4 i, hiff]
      · intro i
        rw [g5 i, h1]
        rw [eligCount_succ, if_pos he]
        by_cases hcc : i = current ∧ current < s.numHarts
        · rw [if_pos hcc, if_pos hcc, h5 i, if_pos hcc]
          omega
        · rw [if_neg hcc, if_neg hcc, h5 i, if_neg hcc]
      · intro i
        rw [g6 i, htn]
        by_cases hi : i = n
        · subst hi
          have hlt : i < i + 1 := by omega
          by_cases hcu : i = current
          · simp only [hcu] at htn ⊢
            simp [htn]
          · simp [he, hlt, hcu]
        · have hiff : i < n + 1 ↔ i < n := by omega
          simp [hi, h6 i, hiff]
      · intro i
        rw [g7 i, htn]
        by_cases hi : i = n
        · subst hi
          have hlt : i < i + 1 := by omega
          by_cases hcu : i = current
          · simp only [hcu] at htmn ⊢
            simp [htmn]
          · by_cases hz : s.ipiType i = 0
            · simp [he, hlt, hcu, hz, htmn]
            · simp [hcu, hz, htmn]
        · have hiff : i < n + 1 ↔ i < n := by omega
          simp [hi, h7 i, hiff]
    · have hef : ipiEligible s mask n = false := by
        cases hef2 : ipiEligible s mask n
        · rfl
        · exact absurd hef2 he
      rw [fence_step_of_not_eligible mask current ctx t n (by rw [helig, hef])]
      refine ⟨h1, h2, h3, ?_, ?_, ?_, ?_⟩
      · intro i
        by_cases hi : i = n
        · subst hi
          simp [h4 i, he, Nat.lt_irrefl]
        · have hiff : i < n + 1 ↔ i < n := by omega
          simp [h4 i, hiff]
      · intro i
        have hzc : eligCount s mask (n + 1) = eligCount s mask n := by
          rw [eligCount_succ, if_neg (by simp [hef]), Nat.add_zero]
        rw [hzc, h5 i]
      · intro i
        by_cases hi : i = n
        · subst hi
          simp [h6 i, he, Nat.lt_irrefl]
        · have hiff : i < n + 1 ↔ i < n := by omega
          simp [h6 i, hiff]
      · intro i
        by_cases hi : i = n
        · subst hi
          simp [h7 i, he, Nat.lt_irrefl]
        · have hiff : i < n + 1 ↔ i < n := by omega
          simp [h7 i, hiff]

/-! ### The rendezvous wait loop -/

theorem fence_wait_zero_of_some (step : Nat → SysState → SysState) (current : Nat) :
    ∀ (fuel : Nat) (s t : SysState),
      fence_wait step current fuel s = some t → t.rendezvous current = 0 := by
  intro fuel
  induction fuel with
  | zero =>
    intro s t h
    unfold fence_wait at h
    by_cases hs : is_sync s current = true
    · rw [if_pos hs] at h
      cases h
      simpa [is_sync] using hs
    · rw [if_neg hs] at h
      cases h
  | succ n ih =>
    intro s t h
    unfold fence_wait at h
    by_cases hs : is_sync s current = true
    · rw [if_pos hs] at h
      cases h
      simpa [is_sync] using hs
    · rw [if_neg hs] at h
      exact ih _ _ h

/-! ### Claim theorems -/

/-- Claim C1 (corrected).  The source `send_ipi_by_fence` performs no reset
of the initiating hart's rendezvous counter before the target loop: the
loop starts from the counter's entry value and each eligible target adds
one to it, so the loop's result is the entry value plus the number of
eligible targets (when the initiator is in topology), not that number
alone.  The counter is zero at the start of a run only because every run
ends with the counter zero (the rendezvous wait), never because of a
reset. -/
theorem fence_publish_no_reset (s : SysState) (mask : Nat → Bool) (ctx : RFenceContext)
    (current max_hart_id : Nat) :
    (fence_publish s mask ctx current max_hart_id).rendezvous current =
      s.rendezvous current +
        (if current < s.numHarts then eligCount s mask (max_hart_id + 1) else 0) := by
  have h := (fence_publish_char mask ctx current s (max_hart_id + 1)).2.2.2.2.1 current
  unfold fence_publish
  rw [h]
  by_cases hc : current < s.numHarts
  · simp [hc]
  · simp [hc]

/-- Counterexample to claim C1 as stated.  Starting `send_ipi_by_fence`
with the initiator's (hart 0) rendezvous counter equal to 5 and one
eligible target (hart 1), the publish loop ends with the counter equal to
6 = 5 + 1: the claimed reset-to-zero before the loop would instead yield
0 + 1 = 1.  The target loop therefore begins with the counter at its entry
value (5 ≠ 0), not at zero. -/
theorem fence_publish_no_reset_cex :
    (fence_publish cexSt maskOnly1 ctx0 0 1).rendezvous 0 = 6 ∧ (6 : Nat) ≠ 1 := by
  constructor
  · rfl
  · decide

/-- Claim C2 (confirmed).  For every hart id in `0..=max_hart_id` that is
in the mask, passes the `remote_hsm` lookup and passes `allow_ipi`, the
publish loop of `send_ipi_by_fence` writes the descriptor into that hart's
`rfence_slot` (overwriting), and the initiator's rendezvous counter grows
by exactly one per eligible target (total: the eligible-target count,
which the eligible `i` makes positive); iff the target is not the
initiator, the `IPI_TYPE_FENCE` bit is OR-ed into its event mask and its
`msip` line is pulsed exactly when the previous mask was zero; the
initiator's own `msip` line is never pulsed by its own fence. -/
theorem fence_publish_eligible_target_effects
    (s : SysState) (mask : Nat → Bool) (ctx : RFenceContext) (current max_hart_id i : Nat)
    (hcur : current < s.numHarts) (hi : i < max_hart_id + 1)
    (he : ipiEligible s mask i = true) :
    (fence_publish s mask ctx current max_hart_id).rfenceSlot i = some (ctx, current) ∧
    (fence_publish s mask ctx current max_hart_id).rendezvous current =
      s.rendezvous current + eligCount s mask (max_hart_id + 1) ∧
    0 < eligCount s mask (max_hart_id + 1) ∧
    (i ≠ current →
      (fence_publish s mask ctx current max_hart_id).ipiType i =
        s.ipiType i ||| IPI_TYPE_FENCE ∧
      (fence_publish s mask ctx current max_hart_id).msipPulses i =
        s.msipPulses i + (if s.ipiType i = 0 then 1 else 0)) ∧
    (i = current →
      (fence_publish s mask ctx current max_hart_id).ipiType i = s.ipiType i) ∧
    (fence_publish s mask ctx current max_hart_id).msipPulses current =
      s.msipPulses current := by
  obtain ⟨g1, g2, g3, g4, g5, g6, g7⟩ := fence_publish_char mask ctx current s (max_hart_id + 1)
  unfold fence_publish
  refine ⟨?_, ?_, ?_, ?_, ?_, ?_⟩
  · rw [g4 i]
    simp [hi, he]
  · rw [g5 current]
    simp [hcur]
  · unfold eligCount
    rw [List.countP_pos_iff]
    exact ⟨i, List.mem_range.mpr hi, he⟩
  · intro hic
    constructor
    · rw [g6 i]
      simp [hi, he, hic]
    · rw [g7 i]
      by_cases hz : s.ipiType i = 0
      · simp [hi, he, hic, hz]
      · simp [hi, he, hic, hz]
  · intro hic
    rw [g6 i]
    simp [hic]
  · rw [g7 current]
    simp

/-- Witness for C2 at a concrete input: two harts, initiator 0, eligible
target 1. -/
theorem fence_publish_eligible_target_effects_witness :
    0 < stW.numHarts ∧ 1 < 1 + 1 ∧ ipiEligible stW maskOnly1 1 = true ∧
    (fence_publish stW maskOnly1 ctx0 0 1).rfenceSlot 1 = some (ctx0, 0) :=
  ⟨by decide, by decide, by decide,
    (fence_publish_eligible_target_effects stW maskOnly1 ctx0 0 1 1 (by decide) (by decide)
      (by decide)).1⟩

/-- Claim C3 (confirmed).  The rendezvous wait of `send_ipi_by_fence`
returns only once the initiator's counter is zero: whenever the wait loop
yields a state (for any interleaved progress `step` of the other harts),
that state's counter is zero; when `is_sync` already holds it returns
immediately; while `is_sync` is false it runs one more service iteration
(the initiator's own `rfence_single_handler` plus environment progress)
instead of returning; and whenever the whole `send_ipi_by_fence` returns,
the returned state's rendezvous counter for the initiator is zero. -/
theorem broadcast_fence_returns_synced :
    (∀ (step : Nat → SysState → SysState) (current fuel : Nat) (s t : SysState),
      fence_wait step current fuel s = some t → t.rendezvous current = 0) ∧
    (∀ (step : Nat → SysState → SysState) (current fuel : Nat) (s : SysState),
      is_sync s current = true → fence_wait step current fuel s = some s) ∧
    (∀ (step : Nat → SysState → SysState) (current fuel : Nat) (s : SysState),
      is_sync s current = false →
        fence_wait step current (fuel + 1) s = fence_wait step current fuel (step fuel s)) ∧
    (∀ (env : Nat → SysState → SysState) (fuel : Nat) (s : SysState) (mask : Nat → Bool)
      (ctx : RFenceContext) (current max_hart_id : Nat) (t : SysState) (ret : SbiRet),
      send_ipi_by_fence env fuel s mask ctx current max_hart_id = some (t, ret) →
        t.rendezvous current = 0) := by
  refine ⟨fence_wait_zero_of_some, ?_, ?_, ?_⟩
  · intro step current fuel s h
    cases fuel <;> simp [fence_wait, h]
  · intro step current fuel s h
    conv_lhs => rw [fence_wait]
    rw [if_neg (by simp [h])]
  · intro env fuel s mask ctx current max_hart_id t ret h
    unfold send_ipi_by_fence at h
    by_cases hc : current < (fence_publish s mask ctx current max_hart_id).numHarts
    · rw [if_pos hc] at h
      rcases Option.map_eq_some'.mp h with ⟨u, hu, huv⟩
      have hut : u = t := congrArg Prod.fst huv
      subst hut
      exact fence_wait_zero_of_some _ current fuel _ u hu
    · rw [if_neg hc] at h
      cases h

/-- Witness for C3 at a concrete input: a state already synchronized. -/
theorem broadcast_fence_returns_synced_witness :
    fence_wait (fun _ t => t) 0 1 stW = some stW ∧ stW.rendezvous 0 = 0 :=
  ⟨rfl, broadcast_fence_returns_synced.1 (fun _ t => t) 0 1 stW stW rfl⟩

/-- Claim C4 (confirmed).  `send_ipi` ORs `IPI_TYPE_SSOFT` into the event
mask of exactly the harts in `0..=max_hart_id` that are in the mask, exist
in topology and whose HSM state allows IPI; every other hart's mask and
pulse count are untouched, pulses respect the coalescing rule, and no
other field of the state changes. -/
theorem send_ipi_exact_effects (s : SysState) (mask : Nat → Bool) (max_hart_id i : Nat) :
    ((send_ipi s mask max_hart_id).1.ipiType i =
      if i < max_hart_id + 1 ∧ ipiEligible s mask i = true
      then s.ipiType i ||| IPI_TYPE_SSOFT else s.ipiType i) ∧
    ((send_ipi s mask max_hart_id).1.msipPulses i =
      if i < max_hart_id + 1 ∧ ipiEligible s mask i = true ∧ s.ipiType i = 0
      then s.msipPulses i + 1 else s.msipPulses i) ∧
    (send_ipi s mask max_hart_id).1.hsm = s.hsm ∧
    (send_ipi s mask max_hart_id).1.rfenceSlot = s.rfenceSlot ∧
    (send_ipi s mask max_hart_id).1.rendezvous = s.rendezvous ∧
    (send_ipi s mask max_hart_id).1.numHarts = s.numHarts ∧
    (send_ipi s mask max_hart_id).1.ub = s.ub := by
  obtain ⟨h1, h2, h3, h4, h5, h6, h7⟩ := send_ipi_loop_char mask s (max_hart_id + 1)
  exact ⟨h6 i, h7 i, h2, h3, h4, h1, h5⟩

/-- Claim C5 (confirmed).  In both `send_ipi` and the fence publish loop,
an eligible target's `msip` line is pulsed exactly when the atomic OR
observed a previously-zero event mask; and two back-to-back `send_ipi`
calls pulse any given hart at most once in total when no trap cleared the
mask in between. -/
theorem msip_pulse_coalescing :
    (∀ (s : SysState) (mask : Nat → Bool) (max_hart_id i : Nat),
      i < max_hart_id + 1 → ipiEligible s mask i = true →
      (send_ipi s mask max_hart_id).1.msipPulses i =
        s.msipPulses i + (if s.ipiType i = 0 then 1 else 0)) ∧
    (∀ (s : SysState) (mask : Nat → Bool) (ctx : RFenceContext) (current max_hart_id i : Nat),
      i < max_hart_id + 1 → ipiEligible s mask i = true → i ≠ current →
      (fence_publish s mask ctx current max_hart_id).msipPulses i =
        s.msipPulses i + (if s.ipiType i = 0 then 1 else 0)) ∧
    (∀ (s : SysState) (ma mb : Nat → Bool) (max_hart_id i : Nat),
      (send_ipi (send_ipi s ma max_hart_id).1 mb max_hart_id).1.msipPulses i ≤
        s.msipPulses i + 1) := by
  refine ⟨?_, ?_, ?_⟩
  · intro s mask max_hart_id i hi he
    obtain ⟨h1, h2, h3, h4, h5, h6, h7⟩ := send_ipi_loop_char mask s (max_hart_id + 1)
    rw [show (send_ipi s mask max_hart_id).1 =
      (List.range (max_hart_id + 1)).foldl (send_ipi_step mask) s from rfl]
    rw [h7 i]
    by_cases hz : s.ipiType i = 0
    · simp [hi, he, hz]
    · simp [hi, he, hz]
  · intro s mask ctx current max_hart_id i hi he hic
    obtain ⟨g1, g2, g3, g4, g5, g6, g7⟩ :=
      fence_publish_char mask ctx current s (max_hart_id + 1)
    unfold fence_publish
    rw [g7 i]
    by_cases hz : s.ipiType i = 0
    · simp [hi, he, hic, hz]
    · simp [hi, he, hic, hz]
  · intro s ma mb max_hart_id i
    obtain ⟨a1, a2, a3, a4, a5, a6, a7⟩ := send_ipi_loop_char ma s (max_hart_id + 1)
    obtain ⟨b1, b2, b3, b4, b5, b6, b7⟩ :=
      send_ipi_loop_char mb ((List.range (max_hart_id + 1)).foldl (send_ipi_step ma) s)
        (max_hart_id + 1)
    rw [show (send_ipi (send_ipi s ma max_hart_id).1 mb max_hart_id).1 =
      (List.range (max_hart_id + 1)).foldl (send_ipi_step mb)
        ((List.range (max_hart_id + 1)).foldl (send_ipi_step ma) s) from rfl]
    rw [b7 i]
    by_cases hcond : i < max_hart_id + 1 ∧ ipiEligible s ma i = true ∧ s.ipiType i = 0
    · have hXt : ((List.range (max_hart_id + 1)).foldl (send_ipi_step ma) s).ipiType i =
          s.ipiType i ||| IPI_TYPE_SSOFT := by
        rw [a6 i]
        simp [hcond.1, hcond.2.1]
      have hX1 : ((List.range (max_hart_id + 1)).foldl (send_ipi_step ma) s).ipiType i = 1 := by
        rw [hXt, hcond.2.2]
        decide
      have hXm : ((List.range (max_hart_id + 1)).foldl (send_ipi_step ma) s).msipPulses i =
          s.msipPulses i + 1 := by
        rw [a7 i, if_pos hcond]
      rw [if_neg (by
        rintro ⟨q1, q2, q3⟩
        rw [hX1] at q3
        cases q3)]
      rw [hXm]
    · have hXm : ((List.range (max_hart_id + 1)).foldl (send_ipi_step ma) s).msipPulses i =
          s.msipPulses i := by
        rw [a7 i, if_neg hcond]
      rw [hXm]
      by_cases h2c : i < max_hart_id + 1 ∧
          ipiEligible ((List.range (max_hart_id + 1)).foldl (send_ipi_step ma) s) mb i = true ∧
          ((List.range (max_hart_id + 1)).foldl (send_ipi_step ma) s).ipiType i = 0
      · rw [if_pos h2c]
      · rw [if_neg h2c]
        omega

/-- Witness for C5 at a concrete input: two harts, eligible target 1. -/
theorem msip_pulse_coalescing_witness :
    1 < 1 + 1 ∧ ipiEligible stW maskOnly1 1 = true ∧
    (send_ipi stW maskOnly1 1).1.msipPulses 1 =
      stW.msipPulses 1 + (if stW.ipiType 1 = 0 then 1 else 0) :=
  ⟨by decide, by decide, msip_pulse_coalescing.1 stW maskOnly1 1 1 (by decide) (by decide)⟩

/-- Claim C6 (confirmed).  Every single operation on a per-hart event mask
either fully clears it (the owner's swap-with-zero) or only grows it (a
sender's fetch-OR, or leaves it unchanged); hence along any interleaving
of `set_ipi_type` and `get_and_reset_ipi_type` steps the mask is only
monotonically grown between full clears, and no partially-cleared state is
observable.  The dispatch paths themselves mutate a mask only by OR-ing
their event bit. -/
theorem ipi_type_monotone_or_cleared :
    (∀ (op : IpiOp) (s : SysState) (j : Nat),
      (runIpiOp op s).ipiType j = 0 ∨
      s.ipiType j ||| (runIpiOp op s).ipiType j = (runIpiOp op s).ipiType j) ∧
    (∀ (s : SysState) (mask : Nat → Bool) (max_hart_id i : Nat),
      (send_ipi s mask max_hart_id).1.ipiType i = s.ipiType i ∨
      (send_ipi s mask max_hart_id).1.ipiType i = s.ipiType i ||| IPI_TYPE_SSOFT) ∧
    (∀ (s : SysState) (mask : Nat → Bool) (ctx : RFenceContext) (current max_hart_id i : Nat),
      (fence_publish s mask ctx current max_hart_id).ipiType i = s.ipiType i ∨
      (fence_publish s mask ctx current max_hart_id).ipiType i =
        s.ipiType i ||| IPI_TYPE_FENCE) := by
  refine ⟨?_, ?_, ?_⟩
  · intro op s j
    cases op with
    | sender h2 b =>
      by_cases hb : h2 < s.numHarts
      · by_cases hk : j = h2
        · subst hk
          right
          have hval : (runIpiOp (IpiOp.sender j b) s).ipiType j = s.ipiType j ||| b := by
            simp [runIpiOp, set_ipi_type, hb]
          rw [hval, ← Nat.or_assoc, Nat.or_self]
        · right
          simp [runIpiOp, set_ipi_type, hb, hk, Nat.or_self]
      · right
        simp [runIpiOp, set_ipi_type, hb, Nat.or_self]
    | ownerClear h2 =>
      by_cases hb : h2 < s.numHarts
      · by_cases hk : j = h2
        · subst hk
          left
          simp [runIpiOp, get_and_reset_ipi_type, hb]
        · right
          simp [runIpiOp, get_and_reset_ipi_type, hb, hk, Nat.or_self]
      · right
        simp [runIpiOp, get_and_reset_ipi_type, hb, Nat.or_self]
  · intro s mask max_hart_id i
    obtain ⟨h1, h2, h3, h4, h5, h6, h7⟩ := send_ipi_loop_char mask s (max_hart_id + 1)
    rw [show (send_ipi s mask max_hart_id).1 =
      (List.range (max_hart_id + 1)).foldl (send_ipi_step mask) s from rfl]
    rw [h6 i]
    by_cases hcond : i < max_hart_id + 1 ∧ ipiEligible s mask i = true
    · right
      rw [if_pos hcond]
    · left
      rw [if_neg hcond]
  · intro s mask ctx current max_hart_id i
    obtain ⟨g1, g2, g3, g4, g5, g6, g7⟩ :=
      fence_publish_char mask ctx current s (max_hart_id + 1)
    unfold fence_publish
    rw [g6 i]
    by_cases hcond : i < max_hart_id + 1 ∧ ipiEligible s mask i = true ∧ i ≠ current
    · right
      rw [if_pos hcond]
    · left
      rw [if_neg hcond]

/-- Claim C7 (confirmed).  `send_ipi` returns `SbiRet::success(0)`
unconditionally, and whenever `send_ipi_by_fence` returns, its result is
`SbiRet::success(0)`: no combination of unknown, ineligible or skipped
targets produces a failure code. -/
theorem dispatch_returns_success :
    (∀ (s : SysState) (mask : Nat → Bool) (max_hart_id : Nat),
      (send_ipi s mask max_hart_id).2 = SbiRet.success 0) ∧
    (∀ (env : Nat → SysState → SysState) (fuel : Nat) (s : SysState) (mask : Nat → Bool)
      (ctx : RFenceContext) (current max_hart_id : Nat) (out : SysState × SbiRet),
      send_ipi_by_fence env fuel s mask ctx current max_hart_id = some out →
      out.2 = SbiRet.success 0) := by
  constructor
  · intro s mask max_hart_id
    rfl
  · intro env fuel s mask ctx current max_hart_id out h
    unfold send_ipi_by_fence at h
    by_cases hc : current < (fence_publish s mask ctx current max_hart_id).numHarts
    · rw [if_pos hc] at h
      rcases Option.map_eq_some'.mp h with ⟨u, hu, huv⟩
      rw [← huv]
    · rw [if_neg hc] at h
      cases h

/-- Witness for C7 at a concrete input: empty mask, synchronized state, so
the fence call terminates immediately. -/
theorem dispatch_returns_success_witness :
    send_ipi_by_fence (fun _ t => t) 0 stW maskNone ctx0 0 0 =
      some (stW, SbiRet.success 0) ∧
    (stW, SbiRet.success 0).2 = SbiRet.success 0 :=
  ⟨rfl, dispatch_returns_success.2 (fun _ t => t) 0 stW maskNone ctx0 0 0
    (stW, SbiRet.success 0) rfl⟩

/-- Claim C8 (corrected).  `get_timeh` returns the high 32-bit half of the
64-bit counter for every counter value, on both a 32-bit and a 64-bit
machine word; but `get_time` is `read_mtime() as usize`, i.e. the counter
truncated to the machine word: it equals the low 32-bit half only on a
32-bit target, while on the repository's 64-bit target it returns the full
64-bit value. -/
theorem get_time_split (mtime : Nat) (h : mtime < 2 ^ 64) :
    get_time 32 mtime = mtime % 2 ^ 32 ∧
    get_time 64 mtime = mtime ∧
    get_timeh 32 mtime = mtime >>> 32 ∧
    get_timeh 64 mtime = mtime >>> 32 := by
  refine ⟨rfl, ?_, ?_, ?_⟩
  · unfold get_time
    exact Nat.mod_eq_of_lt h
  · unfold get_timeh
    apply Nat.mod_eq_of_lt
    rw [Nat.shiftRight_eq_div_pow]
    have hmul : mtime < 2 ^ 32 * 2 ^ 32 := by
      have e : (2 : Nat) ^ 32 * 2 ^ 32 = 2 ^ 64 := by norm_num
      rw [e]
      exact h
    exact Nat.div_lt_of_lt_mul hmul
  · unfold get_timeh
    apply Nat.mod_eq_of_lt
    rw [Nat.shiftRight_eq_div_pow]
    exact lt_of_le_of_lt (Nat.div_le_self _ _) h

/-- Witness for C8's amended statement at a concrete counter value
2^32 + 7. -/
theorem get_time_split_witness :
    (4294967303 : Nat) < 2 ^ 64 ∧ get_time 64 4294967303 = 4294967303 :=
  ⟨by norm_num, (get_time_split 4294967303 (by norm_num)).2.1⟩

/-- Counterexample to claim C8 as stated: at counter value 2^32, `get_time`
with the 64-bit machine word returns 2^32, while the low 32-bit half is 0. -/
theorem get_time_width64_cex :
    get_time 64 (2 ^ 32) = 2 ^ 32 ∧ (2 ^ 32 : Nat) % 2 ^ 32 = 0 ∧ (2 ^ 32 : Nat) ≠ 0 := by
  refine ⟨?_, by norm_num, by norm_num⟩
  unfold get_time
  apply Nat.mod_eq_of_lt
  norm_num

/-- Claim C9 (confirmed).  `set_timer` with deadline `stime_value` on hart
`hart_id`: when Sstc is reported it writes the deadline to the hart-local
`stimecmp` and leaves the shared `mtimecmp` array (and the pending flag)
untouched; otherwise it writes the deadline into the hart's `mtimecmp`
slot and clears the pending supervisor-timer flag; in both branches it
finally sets the timer-interrupt-enable bit.  No other hart's timer state
is touched. -/
theorem set_timer_effects (ts : TimerState) (hart_id stime_value i : Nat) :
    ((set_timer ts hart_id stime_value).stimecmp i =
      if ts.sstc hart_id = true ∧ i = hart_id then stime_value else ts.stimecmp i) ∧
    ((set_timer ts hart_id stime_value).mtimecmp i =
      if ts.sstc hart_id = false ∧ i = hart_id then stime_value else ts.mtimecmp i) ∧
    ((set_timer ts hart_id stime_value).stip i =
      if ts.sstc hart_id = false ∧ i = hart_id then false else ts.stip i) ∧
    ((set_timer ts hart_id stime_value).mtie i =
      if i = hart_id then true else ts.mtie i) ∧
    ((set_timer ts hart_id stime_value).sstc = ts.sstc) := by
  rcases Bool.eq_false_or_eq_true (ts.sstc hart_id) with hs | hs <;>
    by_cases hi : i = hart_id <;>
      simp [set_timer, hs, hi]

/-- Claim C10 (confirmed).  `set_ipi_type` and `get_and_reset_ipi_type`
index the context store without a bounds check; whenever `remote_hsm`
returns a handle the index is in bounds and the unchecked access is safe
(the `ub` flag is not raised), likewise for the current hart; both guarded
dispatch loops therefore never reach the out-of-bounds branch; and a
caller passing an out-of-topology hart id in the mask still gets the
success return, not an error. -/
theorem set_ipi_type_inbounds_safety :
    (∀ (s : SysState) (i : Nat) (st : HsmState), remote_hsm s i = some st →
      i < s.numHarts ∧
      (set_ipi_type s i IPI_TYPE_SSOFT).2.ub = s.ub ∧
      (set_ipi_type s i IPI_TYPE_FENCE).2.ub = s.ub) ∧
    (∀ (s : SysState) (current : Nat), current < s.numHarts →
      (get_and_reset_ipi_type s current).2.ub = s.ub) ∧
    (∀ (s : SysState) (mask : Nat → Bool) (max_hart_id : Nat),
      (send_ipi s mask max_hart_id).1.ub = s.ub) ∧
    (∀ (s : SysState) (mask : Nat → Bool) (ctx : RFenceContext) (current max_hart_id : Nat),
      (fence_publish s mask ctx current max_hart_id).ub = s.ub) ∧
    (∀ (s : SysState) (mask : Nat → Bool) (max_hart_id : Nat),
      (send_ipi s mask max_hart_id).2 = SbiRet.success 0) := by
  refine ⟨?_, ?_, ?_, ?_, ?_⟩
  · intro s i st h
    unfold remote_hsm at h
    by_cases hn : i < s.numHarts
    · exact ⟨hn, by simp [set_ipi_type, hn], by simp [set_ipi_type, hn]⟩
    · rw [if_neg hn] at h
      cases h
  · intro s current h
    simp [get_and_reset_ipi_type, h]
  · intro s mask max_hart_id
    exact (send_ipi_loop_char mask s (max_hart_id + 1)).2.2.2.2.1
  · intro s mask ctx current max_hart_id
    exact (fence_publish_char mask ctx current s (max_hart_id + 1)).2.2.1
  · intro s mask max_hart_id
    rfl

/-- Witness for C10 at a concrete input: hart 1 of the two-hart state has
an HSM handle and is in bounds; the owner's reset at hart 0 raises no
out-of-bounds flag. -/
theorem set_ipi_type_inbounds_safety_witness :
    remote_hsm stW 1 = some HsmState.Started ∧ 1 < stW.numHarts ∧ 0 < stW.numHarts ∧
    (get_and_reset_ipi_type stW 0).2.ub = stW.ub :=
  ⟨rfl, (set_ipi_type_inbounds_safety.1 stW 1 HsmState.Started rfl).1, by decide,
    set_ipi_type_inbounds_safety.2.1 stW 0 (by decide)⟩

end Prototyper
